import Mathlib

/-!
Shallow embedding of the Ecosoul landing-page widget controller
(`src/EcosoulLanding.jsx`): the persistent-store adapter, the upload
registry, the reply generator, the chat session, the journal store and
the healing timer, together with theorems checking the documented
behaviour of each operation.
-/

namespace Ecosoul

/-- JavaScript strings are modelled as lists of characters. -/
abbrev Str := List Char

/-- Turn a Lean string literal into the character-list model. -/
def strLit (s : String) : Str := s.toList

/-- Model of `String.prototype.trim`: strips leading and trailing
whitespace characters. -/
def jsTrim (s : Str) : Str :=
  ((s.dropWhile Char.isWhitespace).reverse.dropWhile Char.isWhitespace).reverse

/-- `uid(prefix)` from the source builds `` `${prefix}_${Math.random().toString(36).slice(2, 9)}` ``.
The random suffix produced by the host's random source is passed in
explicitly by the caller. -/
def uid (pfx : Str) (suffix : Str) : Str := pfx ++ '_' :: suffix

/-- `truncate(s, n)` from the source:
`s.length > n ? s.slice(0, n - 1) + "…" : s`. -/
def truncate (s : Str) (n : Nat) : Str :=
  if n < s.length then s.take (n - 1) ++ ['…'] else s

/-- JSON values, the results of the host's `JSON.parse`. -/
inductive JsValue where
  | null
  | bool (b : Bool)
  | num (n : Int)
  | str (s : Str)
  | arr (elems : List JsValue)
  | obj (fields : List (Str × JsValue))

/-- Skip JSON whitespace. -/
def skipWs : Str → Str
  | c :: cs =>
    if c = ' ' ∨ c = '\t' ∨ c = '\n' ∨ c = '\r' then skipWs cs else c :: cs
  | [] => []

/-- The numeric value of a decimal digit character, if it is one. -/
def digitVal (c : Char) : Option Nat :=
  if '0' ≤ c ∧ c ≤ '9' then some (c.toNat - '0'.toNat) else none

/-- Consume a run of decimal digits, accumulating their value. -/
def parseNatAux : Str → Nat → Nat × Str
  | c :: cs, acc =>
    match digitVal c with
    | some d => parseNatAux cs (acc * 10 + d)
    | none => (acc, c :: cs)
  | [], acc => (acc, [])

/-- Read a JSON string body (after the opening quote) up to the closing
quote; escape sequences are outside the modelled subset. -/
def parseStrBody : Str → Option (Str × Str)
  | [] => none
  | c :: cs =>
    if c = '"' then some ([], cs)
    else if c = '\\' then none
    else
      match parseStrBody cs with
      | some (s, rest) => some (c :: s, rest)
      | none => none

/-- Parsing mode: a single value, the elements of an array, or the
fields of an object. -/
inductive PMode where
  | val
  | elems
  | fields

/-- Intermediate parse results, one shape per mode. -/
inductive PRes where
  | v (x : JsValue)
  | es (xs : List JsValue)
  | fs (xs : List (Str × JsValue))

/-- Modelled from the host boundary: a recursive-descent reading of the
JSON grammar (integer numerals, strings without escapes), standing in
for the browser's `JSON.parse`. Fuel bounds the recursion depth. -/
def parseF : Nat → PMode → Str → Option (PRes × Str)
  | 0, _, _ => none
  | fuel + 1, PMode.val, s =>
    match skipWs s with
    | [] => none
    | c :: cs =>
      if c = '[' then
        match skipWs cs with
        | ']' :: rest => some (PRes.v (JsValue.arr []), rest)
        | s1 =>
          match parseF fuel PMode.elems s1 with
          | some (PRes.es xs, rest) => some (PRes.v (JsValue.arr xs), rest)
          | _ => none
      else if c = '{' then
        match skipWs cs with
        | '}' :: rest => some (PRes.v (JsValue.obj []), rest)
        | s1 =>
          match parseF fuel PMode.fields s1 with
          | some (PRes.fs xs, rest) => some (PRes.v (JsValue.obj xs), rest)
          | _ => none
      else if c = '"' then
        match parseStrBody cs with
        | some (body, rest) => some (PRes.v (JsValue.str body), rest)
        | none => none
      else if c = '-' then
        match cs with
        | d :: _ =>
          match digitVal d with
          | some _ =>
            let p := parseNatAux cs 0
            some (PRes.v (JsValue.num (-(p.1 : Int))), p.2)
          | none => none
        | [] => none
      else
        match digitVal c with
        | some _ =>
          let p := parseNatAux (c :: cs) 0
          some (PRes.v (JsValue.num (p.1 : Int)), p.2)
        | none =>
          if (c :: cs).take 4 = strLit "null" then
            some (PRes.v JsValue.null, (c :: cs).drop 4)
          else if (c :: cs).take 4 = strLit "true" then
            some (PRes.v (JsValue.bool true), (c :: cs).drop 4)
          else if (c :: cs).take 5 = strLit "false" then
            some (PRes.v (JsValue.bool false), (c :: cs).drop 5)
          else none
  | fuel + 1, PMode.elems, s =>
    match parseF fuel PMode.val s with
    | some (PRes.v x, rest) =>
      (match skipWs rest with
       | ',' :: rest2 =>
         match parseF fuel PMode.elems rest2 with
         | some (PRes.es xs, rest3) => some (PRes.es (x :: xs), rest3)
         | _ => none
       | ']' :: rest2 => some (PRes.es [x], rest2)
       | _ => none)
    | _ => none
  | fuel + 1, PMode.fields, s =>
    match skipWs s with
    | '"' :: cs =>
      match parseStrBody cs with
      | some (key, rest) =>
        match skipWs rest with
        | ':' :: rest2 =>
          match parseF fuel PMode.val rest2 with
          | some (PRes.v x, rest3) =>
            (match skipWs rest3 with
             | ',' :: rest4 =>
               match parseF fuel PMode.fields rest4 with
               | some (PRes.fs xs, rest5) => some (PRes.fs ((key, x) :: xs), rest5)
               | _ => none
             | '}' :: rest4 => some (PRes.fs [(key, x)], rest4)
             | _ => none)
          | _ => none
        | _ => none
      | none => none
    | _ => none

/-- Whole-text JSON parse: the value must consume the input up to
trailing whitespace, as `JSON.parse` requires. -/
def jsonParse (s : Str) : Option JsValue :=
  match parseF (2 * s.length + 2) PMode.val s with
  | some (PRes.v v, rest) => if skipWs rest = [] then some v else none
  | _ => none

/-- Persistent Store Adapter read path, from the `useState` initializers:
`try { return JSON.parse(localStorage.getItem(key) || "[]"); } catch (e) { return []; }`.
`stored` is the raw text in storage under the key (`none` when absent);
JavaScript's `||` also replaces the empty string by `"[]"`. -/
def loadCollection (stored : Option Str) : JsValue :=
  let text :=
    match stored with
    | none => strLit "[]"
    | some s => if s = [] then strLit "[]" else s
  match jsonParse text with
  | some v => v
  | none => JsValue.arr []

/-- Message ids: the hard-coded greeting uses the number `1`, while
`uid` produces strings. -/
inductive MsgId where
  | num (n : Nat)
  | str (s : Str)
deriving DecidableEq

/-- The `from` field of a chat message. -/
inductive Sender where
  | you
  | soul
deriving DecidableEq

/-- A chat message `{ id, from, text, time }`. -/
structure ChatMsg where
  id : MsgId
  sender : Sender
  text : Str
  time : Nat
deriving DecidableEq

/-- The fixed greeting text of the initial chat message. -/
def greetingText : Str :=
  strLit "I can't wait to hear about your day — tell me something good."

/-- Initial value of the `chatMessages` state: a single hard-coded
companion message created afresh at mount time (it is not loaded from
storage). -/
def initialChatMessages (now : Nat) : List ChatMsg :=
  [⟨MsgId.num 1, Sender.soul, greetingText, now⟩]

/-- The four handcrafted response templates of `generateSoulReply`. -/
def soulTemplates : List (Str → Str) :=
  [fun u => strLit "I remember when you told me: \"" ++ truncate u 80 ++
      strLit "\". That made me smile.",
   fun _ => strLit "Hearing about this warms me. Tell me more — what happened next?",
   fun _ => strLit "I'm here with you. Breathe with me. Imagine us sitting quietly, listening together.",
   fun _ => strLit "You always find the little joys. I'm proud of you for noticing them."]

/-- `generateSoulReply(userText)`: applies the randomly picked template
(`templates[Math.floor(Math.random() * templates.length)]`, the pick
supplied by the caller) to the user text. -/
def generateSoulReply (userText : Str) (pick : Fin 4) : Str :=
  (soulTemplates.get ⟨pick.val, pick.isLt⟩) userText

/-- The chat-session part of the controller state: the message log, the
input buffer, and the `setTimeout` callbacks scheduled by `sendChat`
that have not fired yet (each captures the raw input of its render). -/
structure ChatState where
  chatMessages : List ChatMsg
  chatInput : Str
  pendingReplies : List Str
deriving DecidableEq

/-- Typing into the chat textarea (`setChatInput`). -/
def setInputS (t : Str) (s : ChatState) : ChatState :=
  { s with chatInput := t }

/-- The Clear button: `setChatMessages([])`. -/
def clearChat (s : ChatState) : ChatState :=
  { s with chatMessages := [] }

/-- `sendChat()`: no-op when the trimmed input is empty; otherwise
appends the user message, clears the input buffer and schedules a
delayed reply whose closure captures the current `chatInput`. The
random id suffix and the clock are supplied by the caller. -/
def sendChat (suffix : Str) (now : Nat) (s : ChatState) : ChatState :=
  if jsTrim s.chatInput = [] then s
  else
    { chatMessages := s.chatMessages ++
        [⟨MsgId.str (uid (strLit "m") suffix), Sender.you, jsTrim s.chatInput, now⟩],
      chatInput := [],
      pendingReplies := s.pendingReplies ++ [s.chatInput] }

/-- A scheduled reply callback firing: appends one companion message
whose text is `generateSoulReply(captured.trim())`. `k` selects which
outstanding callback fires; the id suffix, template pick and clock are
supplied by the caller. (The `speakText` side effect is an external
boundary.) -/
def fireReply (k : Nat) (suffix : Str) (pick : Fin 4) (now : Nat) (s : ChatState) :
    ChatState :=
  match s.pendingReplies[k]? with
  | none => s
  | some captured =>
    { s with
      chatMessages := s.chatMessages ++
        [⟨MsgId.str (uid (strLit "m") suffix), Sender.soul,
          generateSoulReply (jsTrim captured) pick, now⟩],
      pendingReplies := s.pendingReplies.eraseIdx k }

/-- A raw file from the file-picker boundary: name and size. -/
structure FileBlob where
  name : Str
  size : Nat
deriving DecidableEq

/-- An upload record `{ id, name, size, url, createdAt }`; `url` is the
ephemeral playable handle from `URL.createObjectURL`. -/
structure UploadRec where
  id : Str
  name : Str
  size : Nat
  url : Nat
  createdAt : Nat
deriving DecidableEq

/-- The upload-registry part of the controller state. `released` logs
every `URL.revokeObjectURL` call; `mountSnapshot` is the `voiceUploads`
value captured by the unmount-cleanup effect's closure, which has an
empty dependency list and therefore keeps the first render's value. -/
structure UploadSys where
  voiceUploads : List UploadRec
  nextUrl : Nat
  released : List Nat
  mountSnapshot : List UploadRec
deriving DecidableEq

/-- Mounting the component with `initial` as the stored upload
collection. `URL.createObjectURL` hands out fresh handles, so the
allocation counter starts above every handle already in `initial`
(a host guarantee, not controller code). -/
def mountUploads (initial : List UploadRec) : UploadSys :=
  { voiceUploads := initial,
    nextUrl := (initial.map (fun v => v.url)).foldr max 0 + 1,
    released := [],
    mountSnapshot := initial }

/-- `handleVoiceUpload(e)`: one record per picked file, each with a
fresh object URL and a random id, prepended to the list
(`[...items, ...s]`). Files arrive paired with their random id
suffixes. -/
def handleVoiceUpload (files : List (FileBlob × Str)) (now : Nat) (s : UploadSys) :
    UploadSys :=
  let items := files.enum.map (fun p =>
    { id := uid (strLit "voice") p.2.2,
      name := p.2.1.name,
      size := p.2.1.size,
      url := s.nextUrl + p.1,
      createdAt := now : UploadRec })
  { s with
    voiceUploads := items ++ s.voiceUploads,
    nextUrl := s.nextUrl + files.length }

/-- `removeUpload(id)`: `setVoiceUploads((s) => s.filter((v) => v.id !== id))`.
No handle is revoked here. -/
def removeUpload (i : Str) (s : UploadSys) : UploadSys :=
  { s with voiceUploads := s.voiceUploads.filter (fun v => decide (v.id ≠ i)) }

/-- The unmount cleanup effect: revokes the object URL of every record
in the closure-captured first-render snapshot (each call wrapped in a
swallowing try/catch). -/
def unmountCleanup (s : UploadSys) : UploadSys :=
  { s with released := s.released ++ s.mountSnapshot.map (fun v => v.url) }

/-- A journal entry `{ id, title, body, createdAt }`. -/
structure JEntry where
  id : Str
  title : Str
  body : Str
  createdAt : Nat
deriving DecidableEq

/-- The write-through serialization of a journal entry, as
`JSON.stringify` lays it out. -/
def entryToJson (e : JEntry) : JsValue :=
  JsValue.obj
    [(strLit "id", JsValue.str e.id),
     (strLit "title", JsValue.str e.title),
     (strLit "body", JsValue.str e.body),
     (strLit "createdAt", JsValue.num (e.createdAt : Int))]

/-- The journal part of the controller state: the entries, the value
last written through to the `ecosoul_journal` key, and the `alert`
notices surfaced to the user. -/
structure JournalSys where
  journalEntries : List JEntry
  stored : JsValue
  notices : List Str

/-- `addJournalEntry(title, body)`: prepends the new entry; the
persistence effect then writes the whole collection through. -/
def addJournalEntry (title body : Str) (suffix : Str) (now : Nat) (s : JournalSys) :
    JournalSys :=
  let entries : List JEntry := ⟨uid (strLit "j") suffix, title, body, now⟩ :: s.journalEntries
  { s with
    journalEntries := entries,
    stored := JsValue.arr (entries.map entryToJson) }

/-- The validation message of `JournalForm.save`. -/
def journalNotice : Str := strLit "Please add a title and some words."

/-- `JournalForm.save()`: rejects with an alert when either trimmed
field is empty, otherwise hands the trimmed fields to
`addJournalEntry`. -/
def journalFormSave (title body : Str) (suffix : Str) (now : Nat) (s : JournalSys) :
    JournalSys :=
  if jsTrim title = [] ∨ jsTrim body = [] then
    { s with notices := s.notices ++ [journalNotice] }
  else
    addJournalEntry (jsTrim title) (jsTrim body) suffix now s

/-- `deleteJournalEntry(id)`: filters the entry out; the persistence
effect then writes the collection through. -/
def deleteJournalEntry (i : Str) (s : JournalSys) : JournalSys :=
  let entries := s.journalEntries.filter (fun e => decide (e.id ≠ i))
  { s with
    journalEntries := entries,
    stored := JsValue.arr (entries.map entryToJson) }

/-- One repeating `setInterval` schedule of the healing mode, with the
closure-local `cycle` counter of its tick callback. -/
structure HealTimer where
  id : Nat
  cycle : Nat
deriving DecidableEq

/-- The healing-mode part of the controller state: the React state
fields, the set of live interval schedules, the `healingTimerRef`
cell, and a count of narration cues spoken. -/
structure HealState where
  isHealing : Bool
  healingProgress : ℚ
  timers : List HealTimer
  timerRef : Option Nat
  nextTimerId : Nat
  narrations : Nat
deriving DecidableEq

/-- The healing state before any interaction. -/
def initHeal : HealState :=
  { isHealing := false, healingProgress := 0, timers := [], timerRef := none,
    nextTimerId := 0, narrations := 0 }

/-- `clearInterval(healingTimerRef.current)`: cancels the schedule the
ref currently points to (a no-op on a null ref). -/
def clearIntervalRef (s : HealState) : HealState :=
  match s.timerRef with
  | none => s
  | some r => { s with timers := s.timers.filter (fun t => decide (t.id ≠ r)) }

/-- `startHealing()`: unconditionally marks the session active, resets
progress, registers a fresh repeating schedule (local `cycle = 0`) and
overwrites the ref with its id. There is no guard against an already
running session. -/
def startHealing (s : HealState) : HealState :=
  { s with
    isHealing := true,
    healingProgress := 0,
    timers := s.timers ++ [⟨s.nextTimerId, 0⟩],
    timerRef := some s.nextTimerId,
    nextTimerId := s.nextTimerId + 1 }

/-- `stopHealing()`: cancels the ref's schedule, marks the session
inactive and resets progress to 0. -/
def stopHealing (s : HealState) : HealState :=
  let s1 := clearIntervalRef s
  { s1 with isHealing := false, healingProgress := 0 }

/-- One tick of the interval schedule with id `i` (it fires only while
registered): increments its closure-local cycle counter, recomputes
`(cycle / total) * 100`, speaks the breathing cue, and on the sixth
cycle cancels the ref's schedule, deactivates the session and sets
progress to 100. -/
def healTick (i : Nat) (s : HealState) : HealState :=
  match s.timers.find? (fun t => decide (t.id = i)) with
  | none => s
  | some t =>
    let c := t.cycle + 1
    let s1 := { s with
      timers := s.timers.map (fun u => if u.id = i then ⟨u.id, c⟩ else u),
      healingProgress := (c : ℚ) / 6 * 100,
      narrations := s.narrations + 1 }
    if 6 ≤ c then
      let s2 := clearIntervalRef s1
      { s2 with isHealing := false, healingProgress := 100 }
    else s1

/-- Healing-mode events: the Start button, the Stop button, and a tick
of the schedule with the given id. -/
inductive HEvent where
  | start
  | stop
  | tick (i : Nat)

/-- One healing-mode step as the rendered page drives it: the Start
button carries `disabled={isHealing}`, so `startHealing` only runs
from an inactive session; Stop and ticks are unguarded. -/
def hstepUI : HEvent → HealState → HealState
  | HEvent.start, s => if s.isHealing then s else startHealing s
  | HEvent.stop, s => stopHealing s
  | HEvent.tick i, s => healTick i s

/-- Run a sequence of healing-mode events from the initial state. -/
def hrunUI (evs : List HEvent) : HealState :=
  evs.foldl (fun s e => hstepUI e s) initHeal

/-- The id-bearing collections of one widget session. -/
structure SessionState where
  uploads : UploadSys
  journal : JournalSys
  chat : ChatState

/-- A fresh session mounted over empty storage: no uploads, no journal
entries, the greeting as the only chat message. -/
def initSession (now : Nat) : SessionState :=
  { uploads := mountUploads [],
    journal := { journalEntries := [], stored := JsValue.arr [], notices := [] },
    chat := { chatMessages := initialChatMessages now, chatInput := [],
              pendingReplies := [] } }

/-- The user-driven events of one session that touch the id-bearing
collections. Random id suffixes drawn from the host's random source
ride along on the events that allocate ids. -/
inductive SEvent where
  | upload (files : List (FileBlob × Str)) (now : Nat)
  | removeUp (i : Str)
  | typeChat (t : Str)
  | send (r : Str) (now : Nat)
  | fire (k : Nat) (r : Str) (pick : Fin 4) (now : Nat)
  | clearLog
  | jSave (title body r : Str) (now : Nat)
  | jDel (i : Str)

/-- Dispatch one session event to the component operation it triggers. -/
def sstep : SEvent → SessionState → SessionState
  | SEvent.upload files now, s => { s with uploads := handleVoiceUpload files now s.uploads }
  | SEvent.removeUp i, s => { s with uploads := removeUpload i s.uploads }
  | SEvent.typeChat t, s => { s with chat := setInputS t s.chat }
  | SEvent.send r now, s => { s with chat := sendChat r now s.chat }
  | SEvent.fire k r pick now, s => { s with chat := fireReply k r pick now s.chat }
  | SEvent.clearLog, s => { s with chat := clearChat s.chat }
  | SEvent.jSave t b r now, s => { s with journal := journalFormSave t b r now s.journal }
  | SEvent.jDel i, s => { s with journal := deleteJournalEntry i s.journal }

/-- The random id suffixes an event draws from the host random source. -/
def draws : SEvent → List Str
  | SEvent.upload files _ => files.map (fun p => p.2)
  | SEvent.send r _ => [r]
  | SEvent.fire _ r _ _ => [r]
  | SEvent.jSave _ _ r _ => [r]
  | _ => []

/-- All suffixes drawn over a whole event sequence, in order. -/
def drawsOf (evs : List SEvent) : List Str :=
  (evs.map draws).flatten

/-- Run a session event sequence from a given state. -/
def srun (evs : List SEvent) (s : SessionState) : SessionState :=
  evs.foldl (fun s e => sstep e s) s

/-- The upload ids of a session state. -/
def upIds (s : SessionState) : List Str :=
  s.uploads.voiceUploads.map (fun v => v.id)

/-- The journal-entry ids of a session state. -/
def jIds (s : SessionState) : List Str :=
  s.journal.journalEntries.map (fun e => e.id)

/-- The chat-message ids of a session state. -/
def cIds (s : SessionState) : List MsgId :=
  s.chat.chatMessages.map (fun m => m.id)

/-- The controller state built by the `useState` initializers at mount:
uploads and journal are read through the Persistent Store Adapter, the
chat log is the hard-coded greeting, healing mode is off. -/
structure ControllerInit where
  voiceUploads : JsValue
  journalEntries : JsValue
  chatMessages : List ChatMsg
  chatInput : Str
  isHealing : Bool
  healingProgress : ℚ

/-- Mounting the controller over whatever the two storage keys hold. -/
def initController (storedUploads storedJournal : Option Str) (now : Nat) :
    ControllerInit :=
  { voiceUploads := loadCollection storedUploads,
    journalEntries := loadCollection storedJournal,
    chatMessages := initialChatMessages now,
    chatInput := [],
    isHealing := false,
    healingProgress := 0 }

/-- Upload-registry events: picking files and deleting a record. -/
inductive UEvent where
  | upload (files : List (FileBlob × Str)) (now : Nat)
  | removeU (i : Str)

/-- Dispatch one upload-registry event. -/
def ustep : UEvent → UploadSys → UploadSys
  | UEvent.upload files now, s => handleVoiceUpload files now s
  | UEvent.removeU i, s => removeUpload i s

/-- Run a sequence of upload-registry events. -/
def urun (evs : List UEvent) (s : UploadSys) : UploadSys :=
  evs.foldl (fun s e => ustep e s) s

/-- The healing-mode invariant maintained by the rendered UI: at most
one live schedule, none once the session is inactive, and the ref
always points at the live schedule. -/
def HInv (s : HealState) : Prop :=
  s.timers.length ≤ 1 ∧ (s.isHealing = false → s.timers = []) ∧
  ∀ t ∈ s.timers, s.timerRef = some t.id

/-- Filtering twice with the same predicate equals filtering once. -/
lemma filter_idem {α : Type} (p : α → Bool) (l : List α) :
    (l.filter p).filter p = l.filter p := by
  induction l with
  | nil => rfl
  | cons a l ih =>
    by_cases h : p a <;> simp [List.filter_cons, h, ih]

/-- The initial healing state satisfies the invariant. -/
lemma hinv_init : HInv initHeal := by
  refine ⟨by decide, fun _ => rfl, ?_⟩
  intro t ht
  simp [initHeal] at ht

/-- A timer list of length at most one that contains `t` is `[t]`. -/
lemma timers_singleton {l : List HealTimer} (h1 : l.length ≤ 1) {t : HealTimer}
    (ht : t ∈ l) : l = [t] := by
  cases l with
  | nil => cases ht
  | cons a l2 =>
    cases l2 with
    | nil =>
      rcases List.mem_singleton.mp ht with rfl
      rfl
    | cons b l3 => simp at h1

/-- Every UI-guarded healing event preserves the invariant. -/
lemma hinv_step (e : HEvent) (s : HealState) (h : HInv s) : HInv (hstepUI e s) := by
  obtain ⟨h1, h2, h3⟩ := h
  cases e with
  | start =>
    show HInv (if s.isHealing = true then s else startHealing s)
    by_cases hrun : s.isHealing = true
    · rw [if_pos hrun]
      exact ⟨h1, h2, h3⟩
    · have hfalse : s.isHealing = false := by
        cases hb : s.isHealing
        · rfl
        · exact absurd hb hrun
      have hempty : s.timers = [] := h2 hfalse
      rw [if_neg hrun]
      refine ⟨?_, ?_, ?_⟩
      · simp [startHealing, hempty]
      · intro hcontra
        simp [startHealing] at hcontra
      · intro t ht
        simp [startHealing, hempty] at ht
        simp [startHealing, ht]
  | stop =>
    show HInv (stopHealing s)
    have htimers : (stopHealing s).timers = [] := by
      unfold stopHealing clearIntervalRef
      cases href : s.timerRef with
      | none =>
        simp only
        cases hl : s.timers with
        | nil => rfl
        | cons a l =>
          exfalso
          have := h3 a (by rw [hl]; exact List.mem_cons_self a l)
          rw [href] at this
          cases this
      | some r =>
        simp only
        apply List.filter_eq_nil_iff.mpr
        intro t ht
        have := h3 t ht
        rw [href] at this
        have hid : t.id = r := by injection this with h4; exact h4.symm
        simp [hid]
    refine ⟨by rw [htimers]; decide, fun _ => htimers, ?_⟩
    intro t ht
    rw [htimers] at ht
    cases ht
  | tick i =>
    show HInv (healTick i s)
    unfold healTick
    cases hf : s.timers.find? (fun t => decide (t.id = i)) with
    | none => exact ⟨h1, h2, h3⟩
    | some t =>
      have htmem : t ∈ s.timers := List.mem_of_find?_eq_some hf
      have hpred : t.id = i := by
        have := List.find?_some hf
        simpa using this
      have hsing : s.timers = [t] := timers_singleton h1 htmem
      have href : s.timerRef = some t.id := h3 t htmem
      have hheal : s.isHealing = true := by
        cases hb : s.isHealing
        · rw [h2 hb] at htmem; cases htmem
        · rfl
      simp only
      by_cases hc : 6 ≤ t.cycle + 1
      · rw [if_pos hc]
        have hclear : (clearIntervalRef
            { s with
              timers := s.timers.map (fun u => if u.id = i then ⟨u.id, t.cycle + 1⟩ else u),
              healingProgress := ((t.cycle + 1 : Nat) : ℚ) / 6 * 100,
              narrations := s.narrations + 1 }).timers = [] := by
          unfold clearIntervalRef
          rw [href]
          simp only
          apply List.filter_eq_nil_iff.mpr
          intro u hu
          rw [hsing] at hu
          simp only [List.map_cons, List.map_nil, if_pos hpred] at hu
          rcases List.mem_singleton.mp hu with rfl
          simp [hpred]
        refine ⟨?_, ?_, ?_⟩
        · rw [hclear]; decide
        · intro _; exact hclear
        · intro u hu; rw [hclear] at hu; cases hu
      · rw [if_neg hc]
        refine ⟨?_, ?_, ?_⟩
        · simp only [hsing, List.map_cons, List.map_nil]
          simp
        · intro hcontra
          simp only at hcontra
          rw [hheal] at hcontra
          cases hcontra
        · intro u hu
          simp only at hu ⊢
          rw [hsing] at hu
          simp only [List.map_cons, List.map_nil, if_pos hpred] at hu
          rcases List.mem_singleton.mp hu with rfl
          rw [href, hpred]

/-- Running any UI-guarded event sequence preserves the invariant. -/
lemma hrun_inv (evs : List HEvent) : ∀ s : HealState, HInv s →
    HInv (evs.foldl (fun s e => hstepUI e s) s) := by
  induction evs with
  | nil => intro s h; exact h
  | cons e evs ih =>
    intro s h
    exact ih (hstepUI e s) (hinv_step e s h)

/-- No upload-registry event touches the release log or the
closure-captured mount snapshot. -/
lemma urun_frozen (evs : List UEvent) : ∀ s : UploadSys,
    (urun evs s).released = s.released ∧ (urun evs s).mountSnapshot = s.mountSnapshot := by
  induction evs with
  | nil => intro s; exact ⟨rfl, rfl⟩
  | cons e evs ih =>
    intro s
    have hstep : (ustep e s).released = s.released ∧
        (ustep e s).mountSnapshot = s.mountSnapshot := by
      cases e with
      | upload files now => exact ⟨rfl, rfl⟩
      | removeU i => exact ⟨rfl, rfl⟩
    obtain ⟨hr, hm⟩ := ih (ustep e s)
    exact ⟨hr.trans hstep.1, hm.trans hstep.2⟩

/-- With a fixed prefix, `uid` is injective in the random suffix. -/
lemma uid_inj (p : Str) : Function.Injective (uid p) := by
  intro r r' h
  unfold uid at h
  exact (List.cons.inj (List.append_cancel_left h)).2

/-- Mapping a function of the element over an enumerated list forgets
the indices. -/
lemma enumFrom_map_snd_comp {α β : Type} (f : α → β) : ∀ (n : Nat) (l : List α),
    (List.enumFrom n l).map (fun p => f p.2) = l.map f := by
  intro n l
  induction l generalizing n with
  | nil => rfl
  | cons a l ih => simp [List.enumFrom, ih]

/-- The upload ids after an upload event are the freshly generated ids
followed by the previous ones. -/
lemma upIds_upload (files : List (FileBlob × Str)) (now : Nat) (s : SessionState) :
    upIds (sstep (SEvent.upload files now) s) =
      files.map (fun q => uid (strLit "voice") q.2) ++ upIds s := by
  simp only [sstep, upIds, handleVoiceUpload, List.map_append]
  congr 1
  rw [List.map_map]
  exact enumFrom_map_snd_comp (fun q => uid (strLit "voice") q.2) 0 files

/-- Whatever template is picked, the generated reply is non-empty. -/
lemma generateSoulReply_ne_nil (u : Str) (pick : Fin 4) :
    generateSoulReply u pick ≠ [] := by
  rcases pick with ⟨v, hv⟩
  interval_cases v
  · intro hc
    have hc2 : strLit "I remember when you told me: \"" ++ truncate u 80 ++
        strLit "\". That made me smile." = [] := hc
    rw [List.append_eq_nil, List.append_eq_nil] at hc2
    exact absurd hc2.1.1 (by decide)
  · intro hc
    have hc2 : strLit "Hearing about this warms me. Tell me more — what happened next?" = [] := hc
    exact absurd hc2 (by decide)
  · intro hc
    have hc2 : strLit "I'm here with you. Breathe with me. Imagine us sitting quietly, listening together." = [] := hc
    exact absurd hc2 (by decide)
  · intro hc
    have hc2 : strLit "You always find the little joys. I'm proud of you for noticing them." = [] := hc
    exact absurd hc2 (by decide)

/-- As long as the random suffixes drawn over a run are pairwise
distinct, and fresh for the starting state, every collection keeps
pairwise-distinct ids. -/
lemma srun_ids_nodup (evs : List SEvent) : ∀ s : SessionState,
    (drawsOf evs).Nodup →
    (upIds s).Nodup → (jIds s).Nodup → (cIds s).Nodup →
    (∀ r ∈ drawsOf evs, uid (strLit "voice") r ∉ upIds s) →
    (∀ r ∈ drawsOf evs, uid (strLit "j") r ∉ jIds s) →
    (∀ r ∈ drawsOf evs, MsgId.str (uid (strLit "m") r) ∉ cIds s) →
    (upIds (srun evs s)).Nodup ∧ (jIds (srun evs s)).Nodup ∧ (cIds (srun evs s)).Nodup := by
  induction evs with
  | nil => intro s _ hu hj hc _ _ _; exact ⟨hu, hj, hc⟩
  | cons e evs ih =>
    intro s hnd hu hj hc fu fj fc
    have hsplit : drawsOf (e :: evs) = draws e ++ drawsOf evs := by
      simp [drawsOf]
    rw [hsplit] at hnd fu fj fc
    rw [List.nodup_append] at hnd
    obtain ⟨hndE, hndR, hdisj⟩ := hnd
    have hrun : srun (e :: evs) s = srun evs (sstep e s) := rfl
    rw [hrun]
    cases e with
    | upload files now =>
      have hids := upIds_upload files now s
      have hnewnd : (files.map (fun q => uid (strLit "voice") q.2)).Nodup := by
        have h2 : files.map (fun q => uid (strLit "voice") q.2) =
            (files.map (fun q => q.2)).map (uid (strLit "voice")) := by
          rw [List.map_map]; rfl
        rw [h2]
        exact List.Nodup.map (uid_inj (strLit "voice")) hndE
      apply ih (sstep (SEvent.upload files now) s) hndR
      · rw [hids]
        rw [List.nodup_append]
        refine ⟨hnewnd, hu, ?_⟩
        intro x hx hx2
        obtain ⟨q, hq, rfl⟩ := List.mem_map.mp hx
        exact fu q.2 (List.mem_append_left _ (List.mem_map_of_mem _ hq)) hx2
      · exact hj
      · exact hc
      · intro r hr
        rw [hids]
        intro hmem
        rcases List.mem_append.mp hmem with hL | hR
        · obtain ⟨q, hq, heq⟩ := List.mem_map.mp hL
          have : q.2 = r := uid_inj (strLit "voice") heq
          exact hdisj (this ▸ List.mem_map_of_mem _ hq) hr
        · exact fu r (List.mem_append_right _ hr) hR
      · intro r hr
        exact fj r (List.mem_append_right _ hr)
      · intro r hr
        exact fc r (List.mem_append_right _ hr)
    | removeUp i =>
      have hsub : (upIds (sstep (SEvent.removeUp i) s)).Sublist (upIds s) :=
        (List.filter_sublist _).map _
      apply ih (sstep (SEvent.removeUp i) s) hndR
      · exact hu.sublist hsub
      · exact hj
      · exact hc
      · intro r hr hmem
        exact fu r (List.mem_append_right _ hr) (hsub.subset hmem)
      · intro r hr
        exact fj r (List.mem_append_right _ hr)
      · intro r hr
        exact fc r (List.mem_append_right _ hr)
    | typeChat t =>
      apply ih (sstep (SEvent.typeChat t) s) hndR hu hj hc
      · intro r hr
        exact fu r (List.mem_append_right _ hr)
      · intro r hr
        exact fj r (List.mem_append_right _ hr)
      · intro r hr
        exact fc r (List.mem_append_right _ hr)
    | send r now =>
      by_cases hin : jsTrim s.chat.chatInput = []
      · have heq : cIds (sstep (SEvent.send r now) s) = cIds s := by
          simp only [sstep, cIds, sendChat, if_pos hin]
        apply ih (sstep (SEvent.send r now) s) hndR hu hj
        · rw [heq]; exact hc
        · intro r2 hr2
          exact fu r2 (List.mem_append_right _ hr2)
        · intro r2 hr2
          exact fj r2 (List.mem_append_right _ hr2)
        · intro r2 hr2
          rw [heq]
          exact fc r2 (List.mem_append_right _ hr2)
      · have heq : cIds (sstep (SEvent.send r now) s) =
            cIds s ++ [MsgId.str (uid (strLit "m") r)] := by
          simp only [sstep, cIds, sendChat, if_neg hin, List.map_append, List.map_cons,
            List.map_nil]
        have hrmem : r ∈ draws (SEvent.send r now) := by simp [draws]
        apply ih (sstep (SEvent.send r now) s) hndR hu hj
        · rw [heq, List.nodup_append]
          refine ⟨hc, List.nodup_singleton _, ?_⟩
          intro a ha ha2
          rw [List.mem_singleton.mp ha2] at ha
          exact fc r (List.mem_append_left _ hrmem) ha
        · intro r2 hr2
          exact fu r2 (List.mem_append_right _ hr2)
        · intro r2 hr2
          exact fj r2 (List.mem_append_right _ hr2)
        · intro r2 hr2
          rw [heq]
          intro hmem
          rcases List.mem_append.mp hmem with hL | hR
          · exact fc r2 (List.mem_append_right _ hr2) hL
          · have h3 : MsgId.str (uid (strLit "m") r2) = MsgId.str (uid (strLit "m") r) :=
              List.mem_singleton.mp hR
            have h4 : r2 = r := uid_inj (strLit "m") (MsgId.str.inj h3)
            exact hdisj (h4 ▸ hrmem) hr2
    | fire k r pick now =>
      cases hk : s.chat.pendingReplies[k]? with
      | none =>
        have heq : cIds (sstep (SEvent.fire k r pick now) s) = cIds s := by
          simp only [sstep, cIds, fireReply, hk]
        apply ih (sstep (SEvent.fire k r pick now) s) hndR hu hj
        · rw [heq]; exact hc
        · intro r2 hr2
          exact fu r2 (List.mem_append_right _ hr2)
        · intro r2 hr2
          exact fj r2 (List.mem_append_right _ hr2)
        · intro r2 hr2
          rw [heq]
          exact fc r2 (List.mem_append_right _ hr2)
      | some payload =>
        have heq : cIds (sstep (SEvent.fire k r pick now) s) =
            cIds s ++ [MsgId.str (uid (strLit "m") r)] := by
          simp only [sstep, cIds, fireReply, hk, List.map_append, List.map_cons, List.map_nil]
        have hrmem : r ∈ draws (SEvent.fire k r pick now) := by simp [draws]
        apply ih (sstep (SEvent.fire k r pick now) s) hndR hu hj
        · rw [heq, List.nodup_append]
          refine ⟨hc, List.nodup_singleton _, ?_⟩
          intro a ha ha2
          rw [List.mem_singleton.mp ha2] at ha
          exact fc r (List.mem_append_left _ hrmem) ha
        · intro r2 hr2
          exact fu r2 (List.mem_append_right _ hr2)
        · intro r2 hr2
          exact fj r2 (List.mem_append_right _ hr2)
        · intro r2 hr2
          rw [heq]
          intro hmem
          rcases List.mem_append.mp hmem with hL | hR
          · exact fc r2 (List.mem_append_right _ hr2) hL
          · have h3 : MsgId.str (uid (strLit "m") r2) = MsgId.str (uid (strLit "m") r) :=
              List.mem_singleton.mp hR
            have h4 : r2 = r := uid_inj (strLit "m") (MsgId.str.inj h3)
            exact hdisj (h4 ▸ hrmem) hr2
    | clearLog =>
      have heq : cIds (sstep SEvent.clearLog s) = [] := by
        simp only [sstep, cIds, clearChat, List.map_nil]
      apply ih (sstep SEvent.clearLog s) hndR hu hj
      · rw [heq]; exact List.nodup_nil
      · intro r2 hr2
        exact fu r2 (List.mem_append_right _ hr2)
      · intro r2 hr2
        exact fj r2 (List.mem_append_right _ hr2)
      · intro r2 hr2
        rw [heq]
        exact List.not_mem_nil _
    | jSave t b r now =>
      by_cases hval : jsTrim t = [] ∨ jsTrim b = []
      · have heq : jIds (sstep (SEvent.jSave t b r now) s) = jIds s := by
          simp only [sstep, jIds, journalFormSave, if_pos hval]
        apply ih (sstep (SEvent.jSave t b r now) s) hndR hu
        · rw [heq]; exact hj
        · exact hc
        · intro r2 hr2
          exact fu r2 (List.mem_append_right _ hr2)
        · intro r2 hr2
          rw [heq]
          exact fj r2 (List.mem_append_right _ hr2)
        · intro r2 hr2
          exact fc r2 (List.mem_append_right _ hr2)
      · have heq : jIds (sstep (SEvent.jSave t b r now) s) =
            uid (strLit "j") r :: jIds s := by
          simp only [sstep, jIds, journalFormSave, if_neg hval, addJournalEntry,
            List.map_cons]
        have hrmem : r ∈ draws (SEvent.jSave t b r now) := by simp [draws]
        apply ih (sstep (SEvent.jSave t b r now) s) hndR hu
        · rw [heq, List.nodup_cons]
          exact ⟨fj r (List.mem_append_left _ hrmem), hj⟩
        · exact hc
        · intro r2 hr2
          exact fu r2 (List.mem_append_right _ hr2)
        · intro r2 hr2
          rw [heq]
          intro hmem
          rcases List.mem_cons.mp hmem with hL | hR
          · have h4 : r2 = r := uid_inj (strLit "j") hL
            exact hdisj (h4 ▸ hrmem) hr2
          · exact fj r2 (List.mem_append_right _ hr2) hR
        · intro r2 hr2
          exact fc r2 (List.mem_append_right _ hr2)
    | jDel i =>
      have hsub : (jIds (sstep (SEvent.jDel i) s)).Sublist (jIds s) :=
        (List.filter_sublist _).map _
      apply ih (sstep (SEvent.jDel i) s) hndR hu
      · exact hj.sublist hsub
      · exact hc
      · intro r2 hr2
        exact fu r2 (List.mem_append_right _ hr2)
      · intro r2 hr2 hmem
        exact fj r2 (List.mem_append_right _ hr2) (hsub.subset hmem)
      · intro r2 hr2
        exact fc r2 (List.mem_append_right _ hr2)

/-- C1 (counterexample): `startHealing` invoked while a session is
already running (`isHealing = true`) is not a no-op — it registers a
second repeating schedule, so two schedules are active at once. -/
theorem startHealing_while_running_adds_second_schedule :
    (startHealing initHeal).isHealing = true ∧
    (startHealing (startHealing initHeal)).timers.length = 2 := by
  decide

/-- C1 (amended): `startHealing` itself has no double-start guard, but
the rendered page disables the Start button while `isHealing`; under
that UI discipline, at most one repeating schedule is ever active over
any event sequence. -/
theorem healing_at_most_one_schedule_under_ui_guard (evs : List HEvent) :
    (hrunUI evs).timers.length ≤ 1 :=
  (hrun_inv evs initHeal hinv_init).1

/-- C2 (counterexample): after uploading a clip (handle 1),
`removeUpload` deletes the record but releases nothing, and the
unmount cleanup — whose closure captured the empty first-render list —
also releases nothing, so the handle leaks. -/
theorem upload_handle_never_released :
    (handleVoiceUpload [(⟨strLit "a.mp3", 5⟩, strLit "r1")] 0
        (mountUploads [])).voiceUploads.map (fun v => v.url) = [1] ∧
    (removeUpload (uid (strLit "voice") (strLit "r1"))
        (handleVoiceUpload [(⟨strLit "a.mp3", 5⟩, strLit "r1")] 0
          (mountUploads []))).voiceUploads = [] ∧
    (removeUpload (uid (strLit "voice") (strLit "r1"))
        (handleVoiceUpload [(⟨strLit "a.mp3", 5⟩, strLit "r1")] 0
          (mountUploads []))).released = [] ∧
    (unmountCleanup
        (handleVoiceUpload [(⟨strLit "a.mp3", 5⟩, strLit "r1")] 0
          (mountUploads []))).released = [] := by
  decide

/-- C2 (amended): `removeUpload` releases no handle, and the teardown
cleanup releases exactly the handles captured in the first-render
snapshot — each at most once when the stored handles are distinct —
so handles created during the session are never released. -/
theorem teardown_releases_only_mount_snapshot (initial : List UploadRec)
    (evs : List UEvent) :
    (unmountCleanup (urun evs (mountUploads initial))).released =
      initial.map (fun v => v.url) ∧
    (∀ h ∈ (unmountCleanup (urun evs (mountUploads initial))).released,
      h ∈ initial.map (fun v => v.url)) ∧
    ((initial.map (fun v => v.url)).Nodup →
      (unmountCleanup (urun evs (mountUploads initial))).released.Nodup) := by
  obtain ⟨hr, hm⟩ := urun_frozen evs (mountUploads initial)
  have hrel : (unmountCleanup (urun evs (mountUploads initial))).released =
      initial.map (fun v => v.url) := by
    unfold unmountCleanup
    rw [hr, hm]
    simp [mountUploads]
  exact ⟨hrel, fun h hh => by rw [hrel] at hh; exact hh,
    fun hnd => by rw [hrel]; exact hnd⟩

/-- Witness for C2's amended theorem at concrete inputs: a stored
handle 3 is released by teardown, and the release log of an empty
mount stays duplicate-free. -/
theorem teardown_releases_only_mount_snapshot_witness :
    (3 : Nat) ∈ ([⟨strLit "i", strLit "n", 1, 3, 0⟩] : List UploadRec).map
      (fun v => v.url) ∧
    (unmountCleanup (urun [] (mountUploads []))).released.Nodup := by
  constructor
  · exact (teardown_releases_only_mount_snapshot
      [⟨strLit "i", strLit "n", 1, 3, 0⟩] []).2.1 3 (by decide)
  · exact (teardown_releases_only_mount_snapshot [] []).2.2 (by decide)

/-- C3: after exactly 6 ticks from `start()` the progress is 100, the
session is inactive and the schedule is cancelled; `stop()` before the
6th tick cancels the schedule, deactivates the session and forces
progress to exactly 0. -/
theorem healing_six_ticks_complete_and_early_stop :
    (((healTick 0)^[6] (startHealing initHeal)).healingProgress = 100 ∧
     ((healTick 0)^[6] (startHealing initHeal)).isHealing = false ∧
     ((healTick 0)^[6] (startHealing initHeal)).timers = []) ∧
    (∀ k : Nat, k < 6 →
      (stopHealing ((healTick 0)^[k] (startHealing initHeal))).healingProgress = 0 ∧
      (stopHealing ((healTick 0)^[k] (startHealing initHeal))).isHealing = false ∧
      (stopHealing ((healTick 0)^[k] (startHealing initHeal))).timers = []) := by
  constructor
  · decide
  · intro k hk
    interval_cases k <;> decide

/-- Witness for C3 at the concrete cycle count 3. -/
theorem healing_six_ticks_complete_and_early_stop_witness :
    (stopHealing ((healTick 0)^[3] (startHealing initHeal))).healingProgress = 0 ∧
    (stopHealing ((healTick 0)^[3] (startHealing initHeal))).isHealing = false :=
  ⟨(healing_six_ticks_complete_and_early_stop.2 3 (by decide)).1,
   (healing_six_ticks_complete_and_early_stop.2 3 (by decide)).2.1⟩

/-- C4 (counterexample): stored text `"5"` is valid JSON but no
collection; `load` hands the number through unchanged instead of
degrading to the empty collection. -/
theorem load_returns_nonarray_json_unchanged :
    loadCollection (some (strLit "5")) = JsValue.num 5 ∧
    JsValue.num 5 ≠ JsValue.arr [] := by
  refine ⟨rfl, fun h => JsValue.noConfusion h⟩

/-- C4 (amended): `load` never throws; on an absent key, empty stored
text or a parse failure it returns the empty collection, while stored
text that parses as JSON is returned unchanged — even when it is not a
collection. -/
theorem load_empty_on_absence_or_parse_failure :
    (loadCollection none = JsValue.arr []) ∧
    (loadCollection (some []) = JsValue.arr []) ∧
    (∀ s : Str, s ≠ [] → jsonParse s = none → loadCollection (some s) = JsValue.arr []) ∧
    (∀ (s : Str) (v : JsValue), s ≠ [] → jsonParse s = some v →
      loadCollection (some s) = v) := by
  refine ⟨rfl, rfl, fun s hne hp => ?_, fun s v hne hp => ?_⟩
  · simp only [loadCollection, if_neg hne, hp]
  · simp only [loadCollection, if_neg hne, hp]

/-- Witness for C4's amended theorem: unparseable text degrades to the
empty collection, and a well-formed array is returned as parsed. -/
theorem load_empty_on_absence_or_parse_failure_witness :
    loadCollection (some (strLit "nope")) = JsValue.arr [] ∧
    loadCollection (some (strLit "[7]")) = JsValue.arr [JsValue.num 7] := by
  constructor
  · exact load_empty_on_absence_or_parse_failure.2.2.1 (strLit "nope") (by decide) rfl
  · exact load_empty_on_absence_or_parse_failure.2.2.2 (strLit "[7]")
      (JsValue.arr [JsValue.num 7]) (by decide) rfl

/-- C5: saving a journal letter with a title or body that trims to
empty surfaces the notice and leaves entries, persisted state and all
else unchanged; with both fields non-empty after trimming the new
entry is prepended and written through. -/
theorem journal_save_validates_and_prepends (s : JournalSys)
    (title body suffix : Str) (now : Nat) :
    (jsTrim title = [] ∨ jsTrim body = [] →
      (journalFormSave title body suffix now s).journalEntries = s.journalEntries ∧
      (journalFormSave title body suffix now s).stored = s.stored ∧
      (journalFormSave title body suffix now s).notices = s.notices ++ [journalNotice]) ∧
    (jsTrim title ≠ [] → jsTrim body ≠ [] →
      (journalFormSave title body suffix now s).journalEntries =
        ⟨uid (strLit "j") suffix, jsTrim title, jsTrim body, now⟩ :: s.journalEntries ∧
      (journalFormSave title body suffix now s).stored =
        JsValue.arr (((⟨uid (strLit "j") suffix, jsTrim title, jsTrim body, now⟩ : JEntry) ::
          s.journalEntries).map entryToJson) ∧
      (journalFormSave title body suffix now s).notices = s.notices) := by
  constructor
  · intro h
    simp [journalFormSave, if_pos h]
  · intro h1 h2
    have hcond : ¬ (jsTrim title = [] ∨ jsTrim body = []) := by
      rintro (h | h)
      · exact h1 h
      · exact h2 h
    simp [journalFormSave, if_neg hcond, addJournalEntry]

/-- Witness for C5: the spec scenario `add("Hi", "")` is rejected and
the store stays empty, while `add("Hi", "ok")` prepends the entry. -/
theorem journal_save_validates_and_prepends_witness :
    (journalFormSave (strLit "Hi") (strLit "") (strLit "r") 0
        ⟨[], JsValue.arr [], []⟩).journalEntries = [] ∧
    (journalFormSave (strLit "Hi") (strLit "ok") (strLit "r") 0
        ⟨[], JsValue.arr [], []⟩).journalEntries =
      [⟨uid (strLit "j") (strLit "r"), strLit "Hi", strLit "ok", 0⟩] := by
  constructor
  · exact ((journal_save_validates_and_prepends ⟨[], JsValue.arr [], []⟩
      (strLit "Hi") (strLit "") (strLit "r") 0).1 (Or.inr (by decide))).1
  · have h := ((journal_save_validates_and_prepends ⟨[], JsValue.arr [], []⟩
      (strLit "Hi") (strLit "ok") (strLit "r") 0).2 (by decide) (by decide)).1
    rw [h]
    decide

/-- C6: `sendChat` with input that trims to empty changes nothing; with
non-empty trimmed input it appends exactly one user message carrying
the trimmed text, clears the buffer and schedules one reply; a
scheduled reply firing appends exactly one companion message whose
text is one of the four template outputs. -/
theorem sendChat_validates_appends_and_replies (s : ChatState) (suffix : Str)
    (now : Nat) :
    (jsTrim s.chatInput = [] → sendChat suffix now s = s) ∧
    (jsTrim s.chatInput ≠ [] →
      (sendChat suffix now s).chatMessages = s.chatMessages ++
        [⟨MsgId.str (uid (strLit "m") suffix), Sender.you, jsTrim s.chatInput, now⟩] ∧
      (sendChat suffix now s).chatInput = [] ∧
      (sendChat suffix now s).pendingReplies = s.pendingReplies ++ [s.chatInput]) ∧
    (∀ (k : Nat) (payload r : Str) (pick : Fin 4) (now2 : Nat),
      s.pendingReplies[k]? = some payload →
      (fireReply k r pick now2 s).chatMessages = s.chatMessages ++
        [⟨MsgId.str (uid (strLit "m") r), Sender.soul,
          generateSoulReply (jsTrim payload) pick, now2⟩] ∧
      (fireReply k r pick now2 s).pendingReplies = s.pendingReplies.eraseIdx k ∧
      generateSoulReply (jsTrim payload) pick ∈
        soulTemplates.map (fun t => t (jsTrim payload))) := by
  refine ⟨fun h => by simp only [sendChat, if_pos h], fun h => ?_, ?_⟩
  · simp [sendChat, if_neg h]
  · intro k payload r pick now2 hk
    refine ⟨?_, ?_, ?_⟩
    · simp [fireReply, hk]
    · simp [fireReply, hk]
    · exact List.mem_map_of_mem _ (List.get_mem soulTemplates pick.val pick.isLt)

/-- Witness for C6: sending `"hello"` clears the buffer, and a firing
reply produces one of the four template outputs. -/
theorem sendChat_validates_appends_and_replies_witness :
    (sendChat (strLit "a") 1 ⟨initialChatMessages 0, strLit "hello", []⟩).chatInput = [] ∧
    generateSoulReply (jsTrim (strLit "hello")) 2 ∈
      soulTemplates.map (fun t => t (jsTrim (strLit "hello"))) := by
  constructor
  · exact ((sendChat_validates_appends_and_replies
      ⟨initialChatMessages 0, strLit "hello", []⟩ (strLit "a") 1).2.1 (by decide)).2.1
  · exact ((sendChat_validates_appends_and_replies
      ⟨initialChatMessages 0, [], [strLit "hello"]⟩ (strLit "x") 9).2.2
        0 (strLit "hello") (strLit "x") 2 9 rfl).2.2

/-- C7: for non-empty user text the reply is non-empty for every
template pick; the echo template embeds `truncate(userText, 80)`,
which keeps text of at most 80 characters intact and otherwise echoes
the 79-character prefix of the text with an ellipsis appended — an
echoed prefix of at most 80 characters. -/
theorem reply_nonempty_and_echo_truncated (u : Str) (h : u ≠ []) (pick : Fin 4) :
    generateSoulReply u pick ≠ [] ∧
    generateSoulReply u 0 = strLit "I remember when you told me: \"" ++ truncate u 80 ++
      strLit "\". That made me smile." ∧
    (u.length ≤ 80 → truncate u 80 = u) ∧
    (80 < u.length →
      truncate u 80 = u.take 79 ++ ['…'] ∧
      (u.take 79).length ≤ 80 ∧
      u.take 79 ++ u.drop 79 = u) := by
  refine ⟨generateSoulReply_ne_nil u pick, rfl, fun hle => ?_, fun hgt => ?_⟩
  · have hn : ¬ 80 < u.length := by omega
    simp only [truncate, if_neg hn]
  · refine ⟨?_, ?_, List.take_append_drop 79 u⟩
    · simp only [truncate, if_pos hgt]
      try norm_num
    · have := List.length_take 79 u
      omega

/-- Witness for C7 at short and long concrete inputs. -/
theorem reply_nonempty_and_echo_truncated_witness :
    generateSoulReply (strLit "hi") 1 ≠ [] ∧
    truncate (strLit "hi") 80 = strLit "hi" ∧
    truncate (List.replicate 100 'a') 80 =
      (List.replicate 100 'a').take 79 ++ ['…'] := by
  refine ⟨?_, ?_, ?_⟩
  · exact (reply_nonempty_and_echo_truncated (strLit "hi") (by decide) 1).1
  · exact (reply_nonempty_and_echo_truncated (strLit "hi") (by decide) 1).2.2.1 (by decide)
  · exact ((reply_nonempty_and_echo_truncated (List.replicate 100 'a')
      (by decide) 1).2.2.2 (by decide)).1

/-- C8 (counterexample): two `sendChat` calls whose random draws
collide produce two chat messages with the same id. -/
theorem duplicate_chat_ids_on_equal_draws :
    ¬ (cIds (srun [SEvent.typeChat (strLit "a"), SEvent.send (strLit "x") 1,
        SEvent.typeChat (strLit "b"), SEvent.send (strLit "x") 2]
        (initSession 0))).Nodup := by
  decide

/-- C8 (amended): the id generator performs no collision check, so ids
are unique within each collection only provided the random suffixes
drawn over the session are pairwise distinct; under that proviso no
two upload records, journal entries or chat messages share an id. -/
theorem ids_unique_under_distinct_draws (now : Nat) (evs : List SEvent)
    (hnd : (drawsOf evs).Nodup) :
    (upIds (srun evs (initSession now))).Nodup ∧
    (jIds (srun evs (initSession now))).Nodup ∧
    (cIds (srun evs (initSession now))).Nodup := by
  apply srun_ids_nodup evs (initSession now) hnd
  · exact List.nodup_nil
  · exact List.nodup_nil
  · exact List.nodup_singleton _
  · intro r hr
    exact List.not_mem_nil _
  · intro r hr
    exact List.not_mem_nil _
  · intro r hr hmem
    have h2 : MsgId.str (uid (strLit "m") r) = MsgId.num 1 := List.mem_singleton.mp hmem
    exact MsgId.noConfusion h2

/-- Witness for C8's amended theorem on a concrete session. -/
theorem ids_unique_under_distinct_draws_witness :
    (cIds (srun [SEvent.typeChat (strLit "a"), SEvent.send (strLit "x") 1,
        SEvent.typeChat (strLit "b"), SEvent.send (strLit "y") 2]
        (initSession 0))).Nodup :=
  (ids_unique_under_distinct_draws 0
    [SEvent.typeChat (strLit "a"), SEvent.send (strLit "x") 1,
     SEvent.typeChat (strLit "b"), SEvent.send (strLit "y") 2] (by decide)).2.2

/-- C9: `removeUpload` is idempotent — removing the same id twice
yields the state of removing it once — and removing an id no record
carries is a no-op rather than an error. -/
theorem removeUpload_idempotent_and_tolerant (s : UploadSys) (i : Str) :
    removeUpload i (removeUpload i s) = removeUpload i s ∧
    ((∀ v ∈ s.voiceUploads, v.id ≠ i) → removeUpload i s = s) := by
  constructor
  · cases s with
    | mk vu nu rel snap =>
      simp only [removeUpload]
      congr 1
      exact filter_idem _ vu
  · intro h
    cases s with
    | mk vu nu rel snap =>
      simp only [removeUpload]
      congr 1
      exact List.filter_eq_self.mpr (fun v hv => by simpa using h v hv)

/-- Witness for C9: removing an id from a registry that never held it
leaves the registry untouched. -/
theorem removeUpload_idempotent_and_tolerant_witness :
    removeUpload (strLit "z") (mountUploads []) = mountUploads [] :=
  (removeUpload_idempotent_and_tolerant (mountUploads []) (strLit "z")).2 (by decide)

/-- C10: however the two storage keys are populated, the freshly
mounted controller's chat log holds exactly one message — the fixed
companion greeting — so the log starts non-empty and the greeting is
rebuilt identically on every reload, independent of stored data. -/
theorem initial_chat_is_single_greeting
    (storedU storedJ storedU2 storedJ2 : Option Str) (now : Nat) :
    (initController storedU storedJ now).chatMessages.length = 1 ∧
    (initController storedU storedJ now).chatMessages =
      [⟨MsgId.num 1, Sender.soul, greetingText, now⟩] ∧
    (initController storedU storedJ now).chatMessages =
      (initController storedU2 storedJ2 now).chatMessages :=
  ⟨rfl, rfl, rfl⟩

end Ecosoul
